import Mathlib

/-!
Shallow embedding of the qllm core: the provider adapters
(`src/packages/qllm-lib/src/providers/openai/index.ts` and the Google
provider in `src/unnamed/part_001`) and the conversation reducer
(`src/unnamed/part_001`).  JavaScript strings are Lean `String`s,
JS numbers that the code only compares and copies are `Int`,
timestamps (`new Date()` values) are `Nat` milliseconds, `undefined`
option fields are `Option`, and thrown exceptions are `Except` errors.
-/

deriving instance DecidableEq for Except

namespace Qllm

/-- JS truthiness of an optional string: `undefined`, `null` and the
empty string are falsy. -/
def jsTruthy : Option String → Bool
| none => false
| some s => !(s == "")

/-- JS `a || b` for an optional string `a` (empty string is falsy). -/
def jsOrStr (a : Option String) (b : String) : String :=
match a with
| some s => if s == "" then b else s
| none => b

/-- JS `a || b` for an optional number `a` (0 is falsy). -/
def jsOrInt (a : Option Int) (b : Int) : Int :=
match a with
| some v => if v == 0 then b else v
| none => b

/-- Does the list start with the given pattern? -/
def startsWithList : List Char → List Char → Bool
| _, [] => true
| [], _ :: _ => false
| a :: s, b :: p => a == b && startsWithList s p

/-- Does the list contain the pattern as a contiguous sublist? -/
def containsSubList : List Char → List Char → Bool
| [], pat => startsWithList [] pat
| c :: rest, pat => startsWithList (c :: rest) pat || containsSubList rest pat

/-- JS `String.prototype.includes`. -/
def strContains (s pat : String) : Bool := containsSubList s.data pat.data

/-- A JavaScript exception value as the adapters' catch sites see it:
an OpenAI SDK `APIError` (carrying an HTTP status), a built-in
`TypeError`, any other `Error` instance, or a thrown non-`Error` value
(represented by its string conversion). -/
inductive JsError where
| apiError (status : Nat) (message : String)
| typeError (message : String)
| error (message : String)
| other (repr : String)
deriving DecidableEq, Repr

/-- JS `e instanceof Error` (`APIError` and `TypeError` are `Error`
subclasses). -/
def JsError.instanceofError : JsError → Bool
| .other _ => false
| _ => true

/-- The `message` property of an `Error` instance (`none` for thrown
non-`Error` values, whose property access the code never performs). -/
def JsError.message? : JsError → Option String
| .apiError _ m => some m
| .typeError m => some m
| .error m => some m
| .other _ => none

/-- JS string conversion of the caught value, as used by template
interpolation of the form `provider error: ` followed by the value. -/
def JsError.toJsString : JsError → String
| .apiError _ m => "Error: " ++ m
| .typeError m => "TypeError: " ++ m
| .error m => "Error: " ++ m
| .other r => r

/-- The normalized error taxonomy of the provider layer, plus `plain`
for an ordinary `Error` that escapes classification (thrown with
`new Error(...)`). -/
inductive LLMError where
| authentication (message provider : String)
| rateLimit (message provider : String)
| invalidRequest (message provider : String)
| plain (message : String)
deriving DecidableEq, Repr

/-- Is the error one of the three normalized taxonomy kinds? -/
def LLMError.isClassified : LLMError → Bool
| .plain _ => false
| _ => true

/-- Is the error an `AuthenticationError`? -/
def LLMError.isAuthentication : LLMError → Bool
| .authentication _ _ => true
| _ => false

/-- The provider tag of a classified error. -/
def LLMError.provider? : LLMError → Option String
| .authentication _ p => some p
| .rateLimit _ p => some p
| .invalidRequest _ p => some p
| .plain _ => none

/-- `OpenAIProvider.handleError` (openai/index.ts lines 178-192):
an `OpenAI.APIError` is classified by HTTP status (401, 429, other);
any other `Error` becomes `InvalidRequestError` with an
`Unexpected error:` message; a non-`Error` value becomes
`InvalidRequestError` with an `Unknown error occurred:` message. -/
def openaiHandleError : JsError → LLMError
| .apiError status msg =>
    if status == 401 then .authentication "Authentication failed with OpenAI" "OpenAI"
    else if status == 429 then .rateLimit "Rate limit exceeded for OpenAI" "OpenAI"
    else .invalidRequest ("OpenAI request failed: " ++ msg) "OpenAI"
| .typeError msg => .invalidRequest ("Unexpected error: " ++ msg) "OpenAI"
| .error msg => .invalidRequest ("Unexpected error: " ++ msg) "OpenAI"
| .other r => .invalidRequest ("Unknown error occurred: " ++ r) "OpenAI"

/-- `GoogleProvider.handleError` (part_001 lines 376-389): an `Error`
instance is classified by message substring (`API key` / `quota` /
`rate limit` / `not supported` / `invalid`); on no match, and for
non-`Error` values, a fresh plain `Error` tagged
`Google provider error:` is thrown instead. -/
def googleHandleError (e : JsError) : LLMError :=
match e.message? with
| some m =>
    if strContains m "API key" then .authentication m "Google"
    else if strContains m "quota" || strContains m "rate limit" then .rateLimit m "Google"
    else if strContains m "not supported" || strContains m "invalid" then .invalidRequest m "Google"
    else .plain ("Google provider error: " ++ e.toJsString)
| none => .plain ("Google provider error: " ++ e.toJsString)

/-- `OpenAIProvider` constructor (openai/index.ts lines 32-38): reads
`OPENAI_API_KEY` from the environment and throws a plain
`new Error(...)` when it is missing or empty.  Returns the key used. -/
def openaiConstructor (env : Option String) : Except LLMError String :=
if jsTruthy env then .ok (jsOrStr env "") else
.error (.plain "OpenAI API key not found in environment variables")

/-- `GoogleProvider` constructor (part_001 lines 57-71): the explicit
`key` argument, or (JS `??`) the `GOOGLE_API_KEY` environment variable;
a falsy result throws `AuthenticationError`.  Returns the key used. -/
def googleConstructor (key? env : Option String) : Except LLMError String :=
let apiKey : Option String := key? <|> env
if jsTruthy apiKey then .ok (jsOrStr apiKey "") else
.error (.authentication "Google API key GOOGLE_API_KEY is required" "Google")

/-! ## Google adapter: output-variable extraction (part_001 lines 335-351) -/

/-- JS regex `\w`: ASCII letter, digit or underscore. -/
def isWordChar (c : Char) : Bool :=
(c ≥ 'a' && c ≤ 'z') || (c ≥ 'A' && c ≤ 'Z') || (c ≥ '0' && c ≤ '9') || c == '_'

/-- JS regex `\s` on the characters that occur in chat text: the ASCII
whitespace characters plus no-break space and BOM. -/
def isJsSpace (c : Char) : Bool :=
c == ' ' || c == '\t' || c == '\n' || c == '\r' ||
c == '\x0b' || c == '\x0c' || c == '\u00A0' || c == '\uFEFF'

/-- JS `String.prototype.trim`: strip `\s` from both ends. -/
def strTrim (s : String) : String :=
String.mk (((s.data.dropWhile isJsSpace).reverse.dropWhile isJsSpace).reverse)

/-- First occurrence of `pat` in the list: the part before it and the
part after it (the search the lazy `([\s\S]*?)` group performs). -/
def findSub (pat : List Char) : List Char → Option (List Char × List Char)
| [] => if startsWithList [] pat then some ([], []) else none
| c :: rest =>
  if startsWithList (c :: rest) pat then some ([], (c :: rest).drop pat.length)
  else match findSub pat rest with
       | some p => some (c :: p.1, p.2)
       | none => none

/-- One attempt of the regex `<(\w+)>([\s\S]*?)<\/\1>` at the current
position: an opening `<`, a non-empty greedy run of word characters, a
`>`, then the lazily shortest body followed by the matching close tag.
Returns the captured name, the raw body and the rest of the input. -/
def tryTagMatch : List Char → Option (String × String × List Char)
| '<' :: rest =>
  let name := rest.takeWhile isWordChar
  if name.isEmpty then none
  else match rest.drop name.length with
       | '>' :: afterOpen =>
         match findSub ('<' :: '/' :: (name ++ ['>'])) afterOpen with
         | some p => some (String.mk name, String.mk p.1, p.2)
         | none => none
       | _ => none
| _ => none

/-- The global `tagPattern.exec` loop: walk the text left to right; a
match is recorded and the scan resumes after it, a failed attempt
advances one character. Fuelled by the input length, which strictly
bounds the recursion. -/
def scanTagsF : Nat → List Char → List (String × String)
| 0, _ => []
| _ + 1, [] => []
| fuel + 1, c :: rest =>
  match tryTagMatch (c :: rest) with
  | some (n, v, rest2) => (n, v) :: scanTagsF fuel rest2
  | none => scanTagsF fuel rest

/-- All matches of `<(\w+)>([\s\S]*?)<\/\1>` over the text, in order. -/
def scanTags (s : List Char) : List (String × String) := scanTagsF s.length s

/-- JS object property assignment on a string-keyed record, observed as
an association list: overwrite the existing entry or append. -/
def assocSet : List (String × String) → String → String → List (String × String)
| [], k, v => [(k, v)]
| (k0, v0) :: rest, k, v =>
  if k0 == k then (k0, v) :: rest else (k0, v0) :: assocSet rest k v

/-- Lookup in the record built by `assocSet`. -/
def assocGet : List (String × String) → String → Option String
| [], _ => none
| (k0, v0) :: rest, k => if k0 == k then some v0 else assocGet rest k

/-- `GoogleProvider.extractOutputVariables` (part_001 lines 335-351):
assign `variables[name] = value.trim()` for every regex match in order
(so the last match of a name wins), then, when the trimmed text is
non-empty, assign `variables.qllm_response = text.trim()`. -/
def extractOutputVariables (text : String) : List (String × String) :=
let vars := (scanTags text.data).foldl (fun m p => assocSet m p.1 (strTrim p.2)) []
if strTrim text == "" then vars else assocSet vars "qllm_response" (strTrim text)

/-! ## Google adapter: chat completion and emulated streaming -/

/-- The uniform token-usage record of a `ChatCompletionResponse`. -/
structure Usage where
  promptTokens : Int
  completionTokens : Int
  totalTokens : Int
deriving DecidableEq, Repr

/-- The normalized chat completion response, restricted to the fields
the embedded adapters produce. -/
structure ChatCompletionResponse where
  model : String
  text : String
  finishReason : Option String
  usage : Option Usage
  outputVariables : Option (List (String × String))
deriving DecidableEq, Repr

/-- One chunk of a streamed response. -/
structure StreamChunk where
  model : String
  text : Option String
  finishReason : Option String
deriving DecidableEq, Repr

/-- The outcome of the Google REST `fetch` in `streamChatCompletion`
(part_001 lines 186-204): HTTP status, whether `response.ok`, the
`JSON.stringify` of the parsed error body (`none` when the body fails
to parse, printed `null`), and the two paths of the success body the
code reads (`candidates[0].content.parts[0].text` and
`candidates[0].finishReason`). -/
structure FetchOutcome where
  ok : Bool
  status : Nat
  errorDetails : Option String
  text? : Option String
  finishReason? : Option String

/-- The message of the `Error` thrown for a non-ok HTTP response
(part_001 line 196). -/
def googleHttpErrorMessage (status : Nat) (errorDetails : Option String) : String :=
"HTTP error! status: " ++ toString status ++ ", details: " ++ errorDetails.getD "null"

/-- `text.split(/(\s+)/)` over characters: alternating maximal runs of
non-whitespace and whitespace; the whitespace runs are kept because the
split group captures. Fuelled by one more than the input length. -/
def splitKeepF (p : Char → Bool) : Nat → List Char → List (List Char)
| 0, _ => []
| fuel + 1, s =>
  let tok := s.takeWhile (fun c => !(p c))
  match s.dropWhile (fun c => !(p c)) with
  | [] => [tok]
  | c :: r => tok :: ((c :: r).takeWhile p) :: splitKeepF p fuel ((c :: r).dropWhile p)

/-- `text.split(/(\s+)/)` as the Google adapter calls it. -/
def splitKeepSpaces (t : String) : List String :=
(splitKeepF isJsSpace (t.data.length + 1) t.data).map String.mk

/-- `GoogleProvider.getKey` (part_001 lines 101-106). -/
def googleGetKey (key? : Option String) : Except JsError String :=
if jsTruthy key? then .ok (jsOrStr key? "") else .error (.error "Google API key is required")

/-- The body of `GoogleProvider.streamChatCompletion` (part_001 lines
152-225) before its catch clause, parameterized by the available model
keys and default model of the missing `./models` module and by the
backend `fetch` outcome: resolve and check the model, fetch, fail on a
non-ok response or a falsy text, else re-segment the text into
word-level chunks and append a final chunk whose finish reason
defaults to `stop`. -/
def googleStreamBody (avail : List String) (defaultModel : String)
    (optModel : Option String) (key? : Option String) (resp : FetchOutcome) :
    Except JsError (List StreamChunk) :=
  let model := jsOrStr optModel defaultModel
  if !(avail.contains model) then
    .error (.error ("Model " ++ model ++ " not supported by Google"))
  else match googleGetKey key? with
  | .error e => .error e
  | .ok _ =>
    if !resp.ok then
      .error (.error (googleHttpErrorMessage resp.status resp.errorDetails))
    else match resp.text? with
    | none => .error (.error "No text generated from the model")
    | some t =>
      if t == "" then .error (.error "No text generated from the model")
      else
        let words := splitKeepSpaces t
        .ok (words.map (fun w => { model := model, text := some w, finishReason := none }) ++
          [{ model := model, text := some "",
             finishReason := some (jsOrStr resp.finishReason? "stop") }])

/-- `GoogleProvider.streamChatCompletion` with its catch clause: every
failure of the body goes through `handleError`. -/
def googleStreamChatCompletion (avail : List String) (defaultModel : String)
    (optModel : Option String) (key? : Option String) (resp : FetchOutcome) :
    Except LLMError (List StreamChunk) :=
match googleStreamBody avail defaultModel optModel key? resp with
| .ok chunks => .ok chunks
| .error e => .error (googleHandleError e)

/-- `GoogleProvider.generateChatCompletion` (part_001 lines 115-143),
parameterized by the text of the SDK response: check the model, then
return the backend text with `usage: undefined`, no tool calls, a null
finish reason, and output variables extracted when the text is truthy.
Failures of the body go through `handleError`. -/
def googleGenerateChatCompletion (avail : List String) (defaultModel : String)
    (optModel : Option String) (backendText : String) :
    Except LLMError ChatCompletionResponse :=
let model := jsOrStr optModel defaultModel
if !(avail.contains model) then
  .error (googleHandleError (.error ("Model " ++ model ++ " not supported by Google")))
else
  .ok { model := model, text := backendText, finishReason := none, usage := none,
        outputVariables :=
          if backendText == "" then none else some (extractOutputVariables backendText) }

/-- Concatenating the non-null `text` fragments of a stream, as a
caller that renders incrementally would. -/
def concatStreamTexts (chunks : List StreamChunk) : String :=
String.join (chunks.filterMap (fun c => c.text))

/-! ## OpenAI adapter (openai/index.ts) -/

/-- The runtime shape of the `data` sub-record some message contents
carry (`createSystemMessage` builds one); its `text` property may be
absent. -/
structure ContentDataRec where
  text : Option String
deriving DecidableEq, Repr

/-- The runtime value of `ChatMessage.content`.  The documented tagged
union (spec section 3 and the repository's own test file) is
`type: text` with a `text` string directly on the content; the
`data` record is present only on contents built like
`createSystemMessage`'s.  Both fields are kept so that property reads
by either shape can be evaluated. -/
structure MessageContent where
  ctype : String
  text : Option String
  data : Option ContentDataRec
deriving DecidableEq, Repr

/-- A chat message as the adapters receive it. -/
structure ChatMessage where
  role : String
  content : MessageContent
deriving DecidableEq, Repr

/-- A wire message sent to the OpenAI SDK. -/
structure WireMessage where
  role : String
  content : String
deriving DecidableEq, Repr

/-- The documented content shape `type: text, text: s` of the
Message/Content model, with no `data` record. -/
def textContent (s : String) : MessageContent :=
{ ctype := "text", text := some s, data := none }

/-- One step of `OpenAIProvider.formatMessages` (openai/index.ts lines
153-158): the code reads `message.content.data.text || ''`; when the
content carries no `data` record the property read on `undefined`
throws a `TypeError`. -/
def formatOneMessage (m : ChatMessage) : Except JsError WireMessage :=
match m.content.data with
| none => .error (.typeError "Cannot read properties of undefined (reading text)")
| some d => .ok { role := m.role, content := jsOrStr d.text "" }

/-- `OpenAIProvider.formatMessages`: map `formatOneMessage` over the
messages; the first `TypeError` aborts the map. -/
def formatMessages (ms : List ChatMessage) : Except JsError (List WireMessage) :=
ms.mapM formatOneMessage

/-- `OpenAIProvider.createSystemMessage` (openai/index.ts lines
166-176): a system-role message whose content stores the text inside a
`data` record. -/
def createSystemMessage (systemMessageText : String) : ChatMessage :=
{ role := "system",
  content := { ctype := "text", text := none, data := some { text := some systemMessageText } } }

/-- `OpenAIProvider.withSystemMessage` (openai/index.ts lines 160-164):
prepend a synthesized system message when the options carry a non-empty
system message. -/
def withSystemMessage (systemMessage? : Option String) (messages : List ChatMessage) :
    List ChatMessage :=
match systemMessage? with
| some s => if s.length > 0 then createSystemMessage s :: messages else messages
| none => messages

/-- The token-usage record of an OpenAI SDK response. -/
structure OpenAIUsage where
  prompt_tokens : Int
  completion_tokens : Int
  total_tokens : Int
deriving DecidableEq, Repr

/-- One choice of an OpenAI SDK chat completion response; the code
reads `message?.content` and `finish_reason`. -/
structure OpenAIChoice where
  messageContent : Option String
  finish_reason : Option String
deriving DecidableEq, Repr

/-- An OpenAI SDK chat completion response, restricted to the fields
the adapter reads. -/
structure OpenAIResponse where
  choices : List OpenAIChoice
  usage : Option OpenAIUsage
deriving DecidableEq, Repr

/-- `OpenAIProvider.generateChatCompletion` (openai/index.ts lines
45-76), parameterized by the SDK response of the backend call: format
the messages (a formatting `TypeError` is caught and classified by
`handleError`), then build the normalized response; each usage counter
is `counter || 0`, so missing usage is zero-filled. -/
def openaiGenerateChatCompletion (optModel : Option String)
    (systemMessage? : Option String) (messages : List ChatMessage)
    (resp : OpenAIResponse) : Except LLMError ChatCompletionResponse :=
match formatMessages (withSystemMessage systemMessage? messages) with
| .error e => .error (openaiHandleError e)
| .ok _ =>
  let model := jsOrStr optModel "gpt-4o-mini"
  let firstResponse := resp.choices.head?
  .ok { model := model,
        text := jsOrStr (firstResponse.bind (fun c => c.messageContent)) "",
        finishReason := firstResponse.bind (fun c => c.finish_reason),
        usage := some
          { promptTokens := jsOrInt (resp.usage.map (fun u => u.prompt_tokens)) 0,
            completionTokens := jsOrInt (resp.usage.map (fun u => u.completion_tokens)) 0,
            totalTokens := jsOrInt (resp.usage.map (fun u => u.total_tokens)) 0 },
        outputVariables := none }

/-! ## Conversation store data model (part_001 lines 391-637) -/

/-- Conversation metadata: created/updated timestamps, title,
description, and arbitrary extension fields. -/
structure ConversationMetadata where
  createdAt : Nat
  updatedAt : Nat
  title : String
  description : String
  extra : List (String × String)
deriving DecidableEq, Repr

/-- `Partial<ConversationMetadata>`: the fields a payload may carry;
spreading the payload over a metadata record overrides exactly the
present fields. -/
structure MetadataPatch where
  createdAt? : Option Nat := none
  updatedAt? : Option Nat := none
  title? : Option String := none
  description? : Option String := none
  extra : List (String × String) := []
deriving DecidableEq, Repr

/-- The reducer-side message content shape (`type: text`). -/
structure ConvContent where
  ctype : String
  text : String
deriving DecidableEq, Repr

/-- A message stored in a conversation. -/
structure ConversationMessage where
  id : String
  role : String
  content : ConvContent
  timestamp : Nat
  providerId : String
deriving DecidableEq, Repr

/-- A conversation aggregate.  `activeProviders` is a JS `Set`,
observed as its insertion-ordered duplicate-free element list. -/
structure Conversation where
  id : String
  messages : List ConversationMessage
  metadata : ConversationMetadata
  activeProviders : List String
deriving DecidableEq, Repr

/-- JS `Set.prototype.add`: append the element when absent. -/
def setAdd (s : List String) (x : String) : List String :=
if s.contains x then s else s ++ [x]

/-- JS `new Set(iterable)`: left-to-right insertion, duplicates
dropped. -/
def setOfList (xs : List String) : List String :=
xs.foldl setAdd []

/-- JS `Set.prototype.delete`. -/
def setDelete (s : List String) (x : String) : List String :=
s.filter (fun y => !(y == x))

/-- The conversation store: a JS `Map` from conversation id to
conversation, observed as its insertion-ordered entry list. -/
abbrev ConversationMap := List (String × Conversation)

/-- JS `Map.prototype.get`. -/
def mapGet : ConversationMap → String → Option Conversation
| [], _ => none
| (k, c) :: rest, id => if k == id then some c else mapGet rest id

/-- JS `Map.prototype.set` (on the copy `new Map(state)`): overwrite in
place when the key exists, else append. -/
def mapSet : ConversationMap → String → Conversation → ConversationMap
| [], id, c => [(id, c)]
| (k, c0) :: rest, id, c =>
  if k == id then (k, c) :: rest else (k, c0) :: mapSet rest id c

/-- JS `Map.prototype.delete` (on the copy `new Map(state)`). -/
def mapDelete (m : ConversationMap) (id : String) : ConversationMap :=
m.filter (fun p => !(p.1 == id))

/-! ## Runtime JS values for `IMPORT_CONVERSATION` -/

/-- A JavaScript runtime value as `isValidConversation` inspects one:
the JSON universe (null, booleans, numbers, strings, arrays, objects)
plus the `Set` instances the validator tests for and the `undefined`
produced by a missing-property read. -/
inductive JsValue where
| null
| undef
| bool (b : Bool)
| num (n : Int)
| str (s : String)
| arr (xs : List JsValue)
| obj (fields : List (String × JsValue))
| set (xs : List JsValue)

/-- JS `typeof v === 'object'` (true for `null`, arrays, objects and
`Set`s; false for primitives and `undefined`). -/
def JsValue.typeofIsObject : JsValue → Bool
| .null => true
| .arr _ => true
| .obj _ => true
| .set _ => true
| _ => false

/-- JS `typeof v === 'string'`. -/
def JsValue.typeofIsString : JsValue → Bool
| .str _ => true
| _ => false

/-- JS `Array.isArray`. -/
def JsValue.isArrayVal : JsValue → Bool
| .arr _ => true
| _ => false

/-- JS `v instanceof Set`. -/
def JsValue.instanceofSet : JsValue → Bool
| .set _ => true
| _ => false

/-- First binding of a key among an object's fields. -/
def lookupField : List (String × JsValue) → String → Option JsValue
| [], _ => none
| (k, v) :: rest, key => if k == key then some v else lookupField rest key

/-- A JS property read `base[key]`: a `TypeError` on `null` or
`undefined`, the field (or `undefined`) on an object, and `undefined`
on every other value (ignoring built-in properties, which the
validator's keys never hit). -/
def propGet : JsValue → String → Except JsError JsValue
| .null, k => .error (.typeError ("Cannot read properties of null (reading " ++ k ++ ")"))
| .undef, k => .error (.typeError ("Cannot read properties of undefined (reading " ++ k ++ ")"))
| .obj fields, k => .ok ((lookupField fields k).getD .undef)
| _, _ => .ok .undef

mutual

/-- Is the value one `JSON.parse` can return: the JSON universe, with
no `Set` and no `undefined` anywhere inside? -/
def JsValue.jsonDerived : JsValue → Bool
| .null => true
| .bool _ => true
| .num _ => true
| .str _ => true
| .undef => false
| .set _ => false
| .arr xs => jsonDerivedList xs
| .obj fields => jsonDerivedFields fields

/-- All elements of the array are JSON-derived. -/
def jsonDerivedList : List JsValue → Bool
| [] => true
| x :: xs => x.jsonDerived && jsonDerivedList xs

/-- All field values of the object are JSON-derived. -/
def jsonDerivedFields : List (String × JsValue) → Bool
| [] => true
| f :: fs => f.2.jsonDerived && jsonDerivedFields fs

end

/-- `isValidConversation` (part_001 lines 629-637), with JS evaluation
order: `typeof data === 'object' && typeof data.id === 'string' &&
Array.isArray(data.messages) && typeof data.metadata === 'object' &&
data.activeProviders instanceof Set`.  Property reads on `null` throw,
so the conjunction can raise a `TypeError` (which the import catch
clause then wraps). -/
def isValidConversation (data : JsValue) : Except JsError Bool :=
if !data.typeofIsObject then .ok false else
match propGet data "id" with
| .error e => .error e
| .ok idv =>
  if !idv.typeofIsString then .ok false else
  match propGet data "messages" with
  | .error e => .error e
  | .ok msgs =>
    if !msgs.isArrayVal then .ok false else
    match propGet data "metadata" with
    | .error e => .error e
    | .ok md =>
      if !md.typeofIsObject then .ok false else
      match propGet data "activeProviders" with
      | .error e => .error e
      | .ok ap => .ok ap.instanceofSet

/-- The value-level reading of the unchecked cast
`JSON.parse(action.payload) as Conversation` that the import branch
performs on a value accepted by `isValidConversation`: read the fields
the `Conversation` type names, with defaults where a component is not
of the expected runtime shape (the cast itself performs no
conversion). -/
def decodeConversation (v : JsValue) : Conversation :=
let getStr : JsValue → String := fun w => match w with | .str s => s | _ => ""
let getNum : JsValue → Nat := fun w => match w with | .num n => n.toNat | _ => 0
let field : String → JsValue := fun k =>
  match v with | .obj fields => (lookupField fields k).getD .undef | _ => .undef
let mdv := field "metadata"
let mdField : String → JsValue := fun k =>
  match mdv with | .obj fields => (lookupField fields k).getD .undef | _ => .undef
{ id := getStr (field "id"),
  messages := [],
  metadata := { createdAt := getNum (mdField "createdAt"),
                updatedAt := getNum (mdField "updatedAt"),
                title := getStr (mdField "title"),
                description := getStr (mdField "description"),
                extra := [] },
  activeProviders :=
    match field "activeProviders" with
    | .set xs => setOfList (xs.filterMap (fun w => match w with | .str s => some s | _ => none))
    | _ => [] }

/-! ## Conversation reducer (part_001 lines 423-620) -/

/-- The conversation-subsystem error taxonomy. -/
inductive ConvError where
| conversationNotFound (id : String)
| invalidConversationOperation (message : String)
| conversationError (message : String)
deriving DecidableEq, Repr

/-- `CreateConversationOptions`: every field may be absent. -/
structure CreateConversationOptions where
  metadata? : Option MetadataPatch := none
  providerIds? : Option (List String) := none
  initialMessage? : Option String := none
deriving DecidableEq, Repr

/-- `Partial<Conversation>` as `UPDATE_CONVERSATION` spreads it. -/
structure ConversationUpdates where
  id? : Option String := none
  messages? : Option (List ConversationMessage) := none
  metadata? : Option MetadataPatch := none
  activeProviders? : Option (List String) := none
deriving DecidableEq, Repr

/-- The `ADD_MESSAGE` payload (`Omit<ConversationMessage, 'id'>`; the
reducer also overwrites the timestamp). -/
structure NewMessagePayload where
  role : String
  content : ConvContent
  providerId : String
deriving DecidableEq, Repr

/-- `ConversationAction` (part_001 lines 423-438).  The
`IMPORT_CONVERSATION` payload is carried as the outcome of
`JSON.parse` on the payload string: either the parse error message or
the parsed runtime value. -/
inductive ConversationAction where
| createConversation (payload : CreateConversationOptions)
| updateConversation (id : String) (updates : ConversationUpdates)
| deleteConversation (id : String)
| addMessage (id : String) (message : NewMessagePayload)
| setMetadata (id : String) (metadata : MetadataPatch)
| addProvider (id : String) (providerId : String)
| removeProvider (id : String) (providerId : String)
| clearHistory (id : String)
| importConversation (parsed : Except String JsValue)

/-- The metadata merge `{...base, ...patch, updatedAt: new Date()}`
performed by `UPDATE_CONVERSATION`, `SET_METADATA` and the other
mutating branches: each field present in the patch overrides, then the
updated timestamp is set to the action time. -/
def mergeMetadata (base : ConversationMetadata) (patch? : Option MetadataPatch)
    (now : Nat) : ConversationMetadata :=
match patch? with
| none => { base with updatedAt := now }
| some p =>
  { createdAt := p.createdAt?.getD base.createdAt,
    updatedAt := now,
    title := p.title?.getD base.title,
    description := p.description?.getD base.description,
    extra := p.extra.foldl (fun m q => assocSet m q.1 q.2) base.extra }

/-- `conversationReducer` (part_001 lines 460-620).  The two
`uuidv4()` draws a branch can make are passed explicitly as `u1`
(conversation or message id) and `u2` (the initial message id of
`CREATE_CONVERSATION`), and the `new Date()` value as `now`; a thrown
error is an `Except.error`. -/
def conversationReducer (state : ConversationMap) (action : ConversationAction)
    (u1 u2 : String) (now : Nat) : Except ConvError ConversationMap :=
match action with
| .createConversation payload =>
  let id := u1
  let metadata : ConversationMetadata :=
    { createdAt := (payload.metadata?.bind (fun p => p.createdAt?)).getD now,
      updatedAt := (payload.metadata?.bind (fun p => p.updatedAt?)).getD now,
      title := (payload.metadata?.bind (fun p => p.title?)).getD ("Conversation " ++ id),
      description := (payload.metadata?.bind (fun p => p.description?)).getD "",
      extra := (payload.metadata?.map (fun p => p.extra)).getD [] }
  let messages : List ConversationMessage :=
    match payload.initialMessage? with
    | some s =>
      if s == "" then [] else
      [{ id := u2, role := "user", content := { ctype := "text", text := s },
         timestamp := now,
         providerId := jsOrStr ((payload.providerIds?.getD []).head?) "" }]
    | none => []
  let conversation : Conversation :=
    { id := id, messages := messages, metadata := metadata,
      activeProviders := setOfList (payload.providerIds?.getD []) }
  .ok (mapSet state id conversation)
| .updateConversation id updates =>
  match mapGet state id with
  | none => .error (.conversationNotFound id)
  | some conversation =>
    let updatedConversation : Conversation :=
      { id := updates.id?.getD conversation.id,
        messages := updates.messages?.getD conversation.messages,
        metadata := mergeMetadata conversation.metadata updates.metadata? now,
        activeProviders := updates.activeProviders?.getD conversation.activeProviders }
    .ok (mapSet state id updatedConversation)
| .deleteConversation id => .ok (mapDelete state id)
| .addMessage id message =>
  match mapGet state id with
  | none => .error (.conversationNotFound id)
  | some conversation =>
    let newMessage : ConversationMessage :=
      { id := u1, role := message.role, content := message.content,
        timestamp := now, providerId := message.providerId }
    let updatedConversation : Conversation :=
      { conversation with
        messages := conversation.messages ++ [newMessage],
        activeProviders := setAdd (setOfList conversation.activeProviders) message.providerId,
        metadata := { conversation.metadata with updatedAt := now } }
    .ok (mapSet state id updatedConversation)
| .setMetadata id metadata =>
  match mapGet state id with
  | none => .error (.conversationNotFound id)
  | some conversation =>
    let updatedConversation : Conversation :=
      { conversation with metadata := mergeMetadata conversation.metadata (some metadata) now }
    .ok (mapSet state id updatedConversation)
| .addProvider id providerId =>
  match mapGet state id with
  | none => .error (.conversationNotFound id)
  | some conversation =>
    let updatedConversation : Conversation :=
      { conversation with
        activeProviders := setAdd (setOfList conversation.activeProviders) providerId,
        metadata := { conversation.metadata with updatedAt := now } }
    .ok (mapSet state id updatedConversation)
| .removeProvider id providerId =>
  match mapGet state id with
  | none => .error (.conversationNotFound id)
  | some conversation =>
    if !(conversation.activeProviders.contains providerId) then
      .error (.invalidConversationOperation
        ("Provider " ++ providerId ++ " is not active in conversation " ++ id))
    else
      let updatedConversation : Conversation :=
        { conversation with
          activeProviders := setDelete (setOfList conversation.activeProviders) providerId,
          metadata := { conversation.metadata with updatedAt := now } }
      .ok (mapSet state id updatedConversation)
| .clearHistory id =>
  match mapGet state id with
  | none => .error (.conversationNotFound id)
  | some conversation =>
    let updatedConversation : Conversation :=
      { conversation with
        messages := [],
        metadata := { conversation.metadata with updatedAt := now } }
    .ok (mapSet state id updatedConversation)
| .importConversation parsed =>
  match parsed with
  | .error m => .error (.conversationError ("Failed to import conversation: " ++ m))
  | .ok v =>
    match isValidConversation v with
    | .error e =>
      .error (.conversationError ("Failed to import conversation: " ++ (e.message?.getD "")))
    | .ok false =>
      .error (.conversationError "Failed to import conversation: Invalid conversation data structure")
    | .ok true =>
      let parsedData := decodeConversation v
      .ok (mapSet state parsedData.id parsedData)

/-! ## Derived observations about the reducer -/

/-- The key of the (at most one) map entry an action can write:
the fresh id for `CREATE_CONVERSATION`, the targeted id for the other
actions, the imported id for a successful import. -/
def actionKey : ConversationAction → String → Option String
| .createConversation _, u1 => some u1
| .updateConversation id _, _ => some id
| .deleteConversation id, _ => some id
| .addMessage id _, _ => some id
| .setMetadata id _, _ => some id
| .addProvider id _, _ => some id
| .removeProvider id _, _ => some id
| .clearHistory id, _ => some id
| .importConversation (.ok v), _ => some (decodeConversation v).id
| .importConversation (.error _), _ => none

/-- The target of the six mutating actions that require an existing
conversation. -/
def mutatesExisting : ConversationAction → Option String
| .updateConversation id _ => some id
| .addMessage id _ => some id
| .setMetadata id _ => some id
| .addProvider id _ => some id
| .removeProvider id _ => some id
| .clearHistory id => some id
| _ => none

/-- The spec invariant on a store: every reachable conversation has
`updatedAt ≥ createdAt`. -/
def InvariantOk (m : ConversationMap) : Prop :=
∀ id c, mapGet m id = some c → c.metadata.createdAt ≤ c.metadata.updatedAt

/-- The payload patch does not override the reducer-managed
timestamps. -/
def patchKeepsTimestamps (p : MetadataPatch) : Bool :=
p.createdAt?.isNone && p.updatedAt?.isNone

/-- Actions whose payloads cannot smuggle a timestamp into the stored
metadata, and whose import payloads are values `JSON.parse` can
actually produce. -/
def actionTimestampSafe : ConversationAction → Bool
| .createConversation payload =>
  match payload.metadata? with
  | some p => patchKeepsTimestamps p
  | none => true
| .updateConversation _ updates =>
  match updates.metadata? with
  | some p => patchKeepsTimestamps p
  | none => true
| .setMetadata _ p => patchKeepsTimestamps p
| .importConversation (.ok v) => v.jsonDerived
| _ => true

/-- The backend-reported usage counters, when present, are
non-negative (what the OpenAI API guarantees for token counts). -/
def usageNonneg (resp : OpenAIResponse) : Prop :=
∀ u, resp.usage = some u →
  0 ≤ u.prompt_tokens ∧ 0 ≤ u.completion_tokens ∧ 0 ≤ u.total_tokens

/-! ## Map lemmas -/

lemma mapGet_mapSet (m : ConversationMap) (id : String) (c : Conversation) (k : String) :
    mapGet (mapSet m id c) k = if id = k then some c else mapGet m k := by
  induction m with
  | nil => simp [mapSet, mapGet, beq_iff_eq]
  | cons p rest ih =>
    obtain ⟨k0, c0⟩ := p
    by_cases h1 : k0 = id <;> by_cases h2 : k0 = k <;> by_cases h3 : id = k <;>
      simp_all [mapSet, mapGet, beq_iff_eq]

lemma mapGet_mapDelete (m : ConversationMap) (id k : String) :
    mapGet (mapDelete m id) k = if id = k then none else mapGet m k := by
  induction m with
  | nil => simp [mapDelete, mapGet]
  | cons p rest ih =>
    obtain ⟨k0, c0⟩ := p
    by_cases h1 : k0 = id <;> by_cases h2 : k0 = k <;> by_cases h3 : id = k <;>
      simp_all [mapDelete, mapGet, List.filter_cons, beq_iff_eq]

/-! ## C4 -/

/-- C4: an `UPDATE_CONVERSATION`, `ADD_MESSAGE`, `SET_METADATA`,
`ADD_PROVIDER`, `REMOVE_PROVIDER` or `CLEAR_HISTORY` action whose
conversation id is absent from the mapping makes `conversationReducer`
throw `ConversationNotFoundError` for that id, whatever the rest of
the payload; the embedding returns the error without building any new
mapping, so the input mapping is untouched. -/
theorem c4_missing_id_fails_fast :
    ∀ (st : ConversationMap) (u1 u2 : String) (now : Nat) (id : String),
    mapGet st id = none →
    (∀ updates, conversationReducer st (.updateConversation id updates) u1 u2 now =
      .error (.conversationNotFound id)) ∧
    (∀ msg, conversationReducer st (.addMessage id msg) u1 u2 now =
      .error (.conversationNotFound id)) ∧
    (∀ md, conversationReducer st (.setMetadata id md) u1 u2 now =
      .error (.conversationNotFound id)) ∧
    (∀ p, conversationReducer st (.addProvider id p) u1 u2 now =
      .error (.conversationNotFound id)) ∧
    (∀ p, conversationReducer st (.removeProvider id p) u1 u2 now =
      .error (.conversationNotFound id)) ∧
    conversationReducer st (.clearHistory id) u1 u2 now =
      .error (.conversationNotFound id) := by
  intro st u1 u2 now id h
  refine ⟨fun _ => ?_, fun _ => ?_, fun _ => ?_, fun _ => ?_, fun _ => ?_, ?_⟩ <;>
    simp [conversationReducer, h]

/-- Witness for C4 at a concrete store and id. -/
theorem c4_witness :
    conversationReducer [] (.addMessage "c1"
      { role := "user", content := { ctype := "text", text := "Hi" }, providerId := "openai" })
      "u" "v" 0 = .error (.conversationNotFound "c1") ∧
    conversationReducer [] (.clearHistory "c1") "u" "v" 0 =
      .error (.conversationNotFound "c1") :=
  ⟨(c4_missing_id_fails_fast [] "u" "v" 0 "c1" rfl).2.1 _,
   (c4_missing_id_fails_fast [] "u" "v" 0 "c1" rfl).2.2.2.2.2⟩

/-! ## C3 -/

/-- C3 counterexample: `CREATE_CONVERSATION` calls `uuidv4()`, so two
applications of the same action to the same (empty) state, with the
distinct fresh ids two real draws produce, yield structurally
different output mappings — the claimed purity fails as stated. -/
theorem c3_counterexample :
    ¬ (conversationReducer [] (.createConversation ⟨none, none, none⟩) "u1" "m1" 0 =
       conversationReducer [] (.createConversation ⟨none, none, none⟩) "u2" "m1" 0) := by
  decide

/-- C3 amended: with the `uuidv4()` draws and the `new Date()` value
held fixed, the reducer is a function of its inputs (structurally
equal input states give structurally equal outputs), and a successful
transition leaves every entry other than the action's single written
key exactly as it was in the input mapping (the structural-sharing
reading of "untouched entries keep their identity"; the embedding has
no reference mutation, matching the source's copy-then-set shape). -/
theorem c3_purity_amended :
    (∀ (st1 st2 : ConversationMap) (a : ConversationAction) (u1 u2 : String) (now : Nat),
      st1 = st2 →
      conversationReducer st1 a u1 u2 now = conversationReducer st2 a u1 u2 now) ∧
    (∀ (st : ConversationMap) (a : ConversationAction) (u1 u2 : String) (now : Nat)
      (k : String), ¬ (actionKey a u1 = some k) →
      match conversationReducer st a u1 u2 now with
      | .ok st2 => mapGet st2 k = mapGet st k
      | .error _ => True) := by
  constructor
  · intro st1 st2 a u1 u2 now h
    rw [h]
  · intro st a u1 u2 now k hk
    have hne : ∀ id : String, actionKey a u1 = some id → ¬ (id = k) := by
      intro id hid he
      exact hk (he ▸ hid)
    cases a with
    | createConversation p =>
      have h1 : ¬ (u1 = k) := hne u1 rfl
      simp [conversationReducer, mapGet_mapSet, h1]
    | updateConversation id upd =>
      have h1 : ¬ (id = k) := hne id rfl
      cases hg : mapGet st id with
      | none => simp [conversationReducer, hg]
      | some conv => simp [conversationReducer, hg, mapGet_mapSet, h1]
    | deleteConversation id =>
      have h1 : ¬ (id = k) := hne id rfl
      simp [conversationReducer, mapGet_mapDelete, h1]
    | addMessage id msg =>
      have h1 : ¬ (id = k) := hne id rfl
      cases hg : mapGet st id with
      | none => simp [conversationReducer, hg]
      | some conv => simp [conversationReducer, hg, mapGet_mapSet, h1]
    | setMetadata id md =>
      have h1 : ¬ (id = k) := hne id rfl
      cases hg : mapGet st id with
      | none => simp [conversationReducer, hg]
      | some conv => simp [conversationReducer, hg, mapGet_mapSet, h1]
    | addProvider id p =>
      have h1 : ¬ (id = k) := hne id rfl
      cases hg : mapGet st id with
      | none => simp [conversationReducer, hg]
      | some conv => simp [conversationReducer, hg, mapGet_mapSet, h1]
    | removeProvider id p =>
      have h1 : ¬ (id = k) := hne id rfl
      cases hg : mapGet st id with
      | none => simp [conversationReducer, hg]
      | some conv =>
        by_cases hc : p ∈ conv.activeProviders <;>
          simp [conversationReducer, hg, hc, mapGet_mapSet, h1]
    | clearHistory id =>
      have h1 : ¬ (id = k) := hne id rfl
      cases hg : mapGet st id with
      | none => simp [conversationReducer, hg]
      | some conv => simp [conversationReducer, hg, mapGet_mapSet, h1]
    | importConversation parsed =>
      cases parsed with
      | error m => simp [conversationReducer]
      | ok v =>
        have h1 : ¬ ((decodeConversation v).id = k) := hne _ rfl
        cases hv : isValidConversation v with
        | error e => simp [conversationReducer, hv]
        | ok b =>
          cases b with
          | false => simp [conversationReducer, hv]
          | true => simp [conversationReducer, hv, mapGet_mapSet, h1]

/-- Witness for C3's amended theorem at concrete inputs. -/
theorem c3_witness :
    conversationReducer [] (.createConversation ⟨none, none, none⟩) "u1" "m1" 0 =
      conversationReducer [] (.createConversation ⟨none, none, none⟩) "u1" "m1" 0 ∧
    (match conversationReducer [] (.createConversation ⟨none, none, none⟩) "u1" "m1" 0 with
     | .ok st2 => mapGet st2 "other" = mapGet [] "other"
     | .error _ => True) :=
  ⟨c3_purity_amended.1 [] [] _ "u1" "m1" 0 rfl,
   c3_purity_amended.2 [] _ "u1" "m1" 0 "other" (by decide)⟩

/-! ## C1 -/

/-- C1 counterexample: a backend 401 whose response body does not
parse makes the Google streaming path throw an `Error` with message
`HTTP error! status: 401, details: null`; that message matches none of
`handleError`'s substrings, so the adapter rethrows a plain `Error` —
a backend 401-equivalent escapes the Provider Contract unclassified,
as neither `AuthenticationError` nor any other taxonomy kind. -/
theorem c1_counterexample :
    googleStreamChatCompletion ["gemini-1.5-pro"] "gemini-1.5-pro" none (some "key")
      { ok := false, status := 401, errorDetails := none, text? := none, finishReason? := none } =
      .error (.plain "Google provider error: Error: HTTP error! status: 401, details: null") ∧
    (LLMError.plain
      "Google provider error: Error: HTTP error! status: 401, details: null").isClassified
      = false ∧
    (LLMError.plain
      "Google provider error: Error: HTTP error! status: 401, details: null").isAuthentication
      = false :=
  ⟨by decide, rfl, rfl⟩

/-- C1 amended: the OpenAI adapter's `handleError` classifies every
failure into `AuthenticationError | RateLimitError |
InvalidRequestError` tagged `OpenAI` (with a 401 giving
`AuthenticationError`); the Google adapter's `handleError` classifies
a failure, tagged `Google`, exactly when the failure is an `Error`
whose message contains one of the discriminator substrings `API key`,
`quota`, `rate limit`, `not supported`, `invalid` — every other
failure is rethrown as a plain `Error` and leaks. -/
theorem c1_error_normalization_amended :
    (∀ e : JsError, (openaiHandleError e).isClassified = true ∧
      (openaiHandleError e).provider? = some "OpenAI") ∧
    (∀ m : String, openaiHandleError (.apiError 401 m) =
      .authentication "Authentication failed with OpenAI" "OpenAI") ∧
    (∀ e : JsError, ((googleHandleError e).isClassified = true ↔
      ∃ m, e.message? = some m ∧
        (strContains m "API key" = true ∨ strContains m "quota" = true ∨
         strContains m "rate limit" = true ∨ strContains m "not supported" = true ∨
         strContains m "invalid" = true))) ∧
    (∀ e : JsError, (googleHandleError e).isClassified = true →
      (googleHandleError e).provider? = some "Google") := by
  refine ⟨?_, ?_, ?_, ?_⟩
  · intro e
    cases e with
    | apiError s m =>
      simp only [openaiHandleError]
      split_ifs <;> exact ⟨rfl, rfl⟩
    | typeError m => exact ⟨rfl, rfl⟩
    | error m => exact ⟨rfl, rfl⟩
    | other r => exact ⟨rfl, rfl⟩
  · intro m
    rfl
  · intro e
    cases he : e.message? with
    | none => simp [googleHandleError, he, LLMError.isClassified]
    | some m =>
      simp only [googleHandleError, he]
      split_ifs with h1 h2 h3
      · simp only [LLMError.isClassified, true_iff]
        exact ⟨m, rfl, Or.inl h1⟩
      · simp only [LLMError.isClassified, true_iff]
        rcases (show strContains m "quota" = true ∨ strContains m "rate limit" = true by
          simpa using h2) with h | h
        · exact ⟨m, rfl, Or.inr (Or.inl h)⟩
        · exact ⟨m, rfl, Or.inr (Or.inr (Or.inl h))⟩
      · simp only [LLMError.isClassified, true_iff]
        rcases (show strContains m "not supported" = true ∨ strContains m "invalid" = true by
          simpa using h3) with h | h
        · exact ⟨m, rfl, Or.inr (Or.inr (Or.inr (Or.inl h)))⟩
        · exact ⟨m, rfl, Or.inr (Or.inr (Or.inr (Or.inr h)))⟩
      · simp only [LLMError.isClassified]
        refine ⟨fun hct => absurd hct (by simp), fun hex => ?_⟩
        exfalso
        obtain ⟨m2, hm2, hor⟩ := hex
        injection hm2 with hm2
        subst hm2
        have h2a : ¬ (strContains m "quota" = true ∨ strContains m "rate limit" = true) := by
          simpa using h2
        have h3a : ¬ (strContains m "not supported" = true ∨ strContains m "invalid" = true) := by
          simpa using h3
        rcases hor with h | h | h | h | h
        · exact h1 h
        · exact h2a (Or.inl h)
        · exact h2a (Or.inr h)
        · exact h3a (Or.inl h)
        · exact h3a (Or.inr h)
  · intro e h
    cases he : e.message? with
    | none => simp [googleHandleError, he, LLMError.isClassified] at h
    | some m =>
      simp only [googleHandleError, he] at h ⊢
      split_ifs at h ⊢ <;> first | rfl | simp [LLMError.isClassified] at h

/-- Witness for C1's amended theorem at concrete errors. -/
theorem c1_witness :
    (openaiHandleError (.apiError 500 "boom")).isClassified = true ∧
    openaiHandleError (.apiError 401 "x") =
      .authentication "Authentication failed with OpenAI" "OpenAI" ∧
    (googleHandleError (.error "quota exceeded")).isClassified = true ∧
    (googleHandleError (.error "quota exceeded")).provider? = some "Google" := by
  have h := c1_error_normalization_amended
  have hg : (googleHandleError (.error "quota exceeded")).isClassified = true :=
    (h.2.2.1 (.error "quota exceeded")).mpr ⟨"quota exceeded", rfl, Or.inr (Or.inl (by decide))⟩
  exact ⟨(h.1 _).1, h.2.1 "x", hg, h.2.2.2 _ hg⟩

/-! ## C8 -/

/-- C8 counterexample: constructing the OpenAI adapter with no
`OPENAI_API_KEY` in the environment throws a plain
`new Error('OpenAI API key not found in environment variables')`, not
an `AuthenticationError`. -/
theorem c8_counterexample :
    openaiConstructor none =
      .error (.plain "OpenAI API key not found in environment variables") ∧
    (LLMError.plain "OpenAI API key not found in environment variables").isAuthentication
      = false :=
  ⟨rfl, rfl⟩

/-- C8 amended: with no usable credential, the Google constructor
throws `AuthenticationError` tagged `Google`, while the OpenAI
constructor throws a plain `Error` (message
`OpenAI API key not found in environment variables`) rather than an
`AuthenticationError`. -/
theorem c8_constructor_amended :
    (∀ env, jsTruthy env = false →
      openaiConstructor env =
        .error (.plain "OpenAI API key not found in environment variables")) ∧
    (∀ key? env, jsTruthy (key? <|> env) = false →
      googleConstructor key? env =
        .error (.authentication "Google API key GOOGLE_API_KEY is required" "Google")) := by
  constructor
  · intro env h
    simp [openaiConstructor, h]
  · intro key? env h
    simp [googleConstructor, h]

/-- Witness for C8's amended theorem with absent key and environment
variable. -/
theorem c8_witness :
    openaiConstructor none =
      .error (.plain "OpenAI API key not found in environment variables") ∧
    googleConstructor none none =
      .error (.authentication "Google API key GOOGLE_API_KEY is required" "Google") :=
  ⟨c8_constructor_amended.1 none rfl, c8_constructor_amended.2 none none rfl⟩

/-! ## C10 -/

/-- C10 (code bug): `formatMessages` reads
`message.content.data.text`, but a message whose content is the
documented tagged union (the shape the repository's own test builds:
role `user`, content `type: text` with the text directly on the
content) has no `data` record, so formatting throws a `TypeError`
instead of producing a wire message carrying the text; the adapter's
catch then surfaces it as an `InvalidRequestError`, and the message
text never reaches the wire. -/
theorem c10_format_messages_crashes :
    formatMessages [{ role := "user", content := textContent "What is the capital of France?" }] =
      .error (.typeError "Cannot read properties of undefined (reading text)") ∧
    openaiGenerateChatCompletion (some "gpt-4o-mini") none
      [{ role := "user", content := textContent "What is the capital of France?" }]
      { choices := [], usage := none } =
      .error (.invalidRequest
        "Unexpected error: Cannot read properties of undefined (reading text)" "OpenAI") :=
  ⟨by decide, by decide⟩

/-! ## C2 -/

lemma jsonDerivedFields_lookup (fields : List (String × JsValue)) (k : String)
    (w : JsValue) (hf : jsonDerivedFields fields = true)
    (hl : lookupField fields k = some w) : w.jsonDerived = true := by
  induction fields with
  | nil => simp [lookupField] at hl
  | cons f fs ih =>
    rw [jsonDerivedFields] at hf
    obtain ⟨h1, h2⟩ : f.2.jsonDerived = true ∧ jsonDerivedFields fs = true := by
      simpa using hf
    rw [lookupField] at hl
    by_cases hk : f.1 == k
    · rw [if_pos hk] at hl
      injection hl with hl
      exact hl ▸ h1
    · rw [if_neg hk] at hl
      exact ih h2 hl

lemma jsonDerived_not_set (v : JsValue) (h : v.jsonDerived = true) :
    v.instanceofSet = false := by
  cases v <;> first | rfl | simp [JsValue.jsonDerived] at h

/-- On every value `JSON.parse` can return, `isValidConversation`
either computes `false` or throws: the `activeProviders instanceof
Set` conjunct cannot hold for a JSON-derived value (and a parsed
`null` makes the property read throw). -/
lemma isValid_never_true_of_jsonDerived (v : JsValue) (h : v.jsonDerived = true) :
    isValidConversation v = .ok false ∨ ∃ e, isValidConversation v = .error e := by
  cases v with
  | null => exact Or.inr ⟨_, rfl⟩
  | undef => simp [JsValue.jsonDerived] at h
  | set xs => simp [JsValue.jsonDerived] at h
  | bool b => exact Or.inl rfl
  | num n => exact Or.inl rfl
  | str s => exact Or.inl rfl
  | arr xs => exact Or.inl rfl
  | obj fields =>
    left
    have hf : jsonDerivedFields fields = true := by
      simpa [JsValue.jsonDerived] using h
    have hap : ((lookupField fields "activeProviders").getD .undef).instanceofSet = false := by
      cases hl : lookupField fields "activeProviders" with
      | none => rfl
      | some w =>
        simpa using jsonDerived_not_set w (jsonDerivedFields_lookup fields _ w hf hl)
    simp only [isValidConversation, JsValue.typeofIsObject, propGet, Bool.not_true,
      Bool.not_false, if_false, if_true, hap]
    split_ifs <;> simp [hap]

lemma startsWithList_self_append (p q : List Char) : startsWithList (p ++ q) p = true := by
  induction p with
  | nil => cases q <;> rfl
  | cons a p ih => simp [startsWithList, ih]

/-- Does the string start with the pattern? -/
def strStartsWith (s pat : String) : Bool := startsWithList s.data pat.data

lemma strStartsWith_append (p x : String) : strStartsWith (p ++ x) p = true := by
  have hd : (p ++ x).data = p.data ++ x.data := rfl
  simp [strStartsWith, hd, startsWithList_self_append]

lemma strStartsWith_import_tag (x : String) :
    strStartsWith ("Failed to import conversation: " ++ x)
      "Failed to import conversation" = true := by
  have h1 : "Failed to import conversation: " ++ x =
      "Failed to import conversation" ++ (": " ++ x) := by
    have h0 : ("Failed to import conversation: " : String) =
        "Failed to import conversation" ++ ": " := by decide
    rw [h0, String.append_assoc]
  rw [h1]
  exact strStartsWith_append _ _

/-- Every `IMPORT_CONVERSATION` whose payload is the outcome of a real
`JSON.parse` fails with a `ConversationError` whose message carries
the `Failed to import conversation` tag. -/
lemma import_always_fails (st : ConversationMap) (u1 u2 : String) (now : Nat)
    (parsed : Except String JsValue)
    (hp : ∀ v, parsed = Except.ok v → v.jsonDerived = true) :
    ∃ m, conversationReducer st (.importConversation parsed) u1 u2 now =
      .error (.conversationError m) ∧
      strStartsWith m "Failed to import conversation" = true := by
  cases parsed with
  | error m => exact ⟨_, rfl, strStartsWith_import_tag m⟩
  | ok v =>
    rcases isValid_never_true_of_jsonDerived v (hp v rfl) with hv | ⟨e, hv⟩
    · exact ⟨"Failed to import conversation: Invalid conversation data structure",
        by simp [conversationReducer, hv], by decide⟩
    · exact ⟨"Failed to import conversation: " ++ (e.message?.getD ""),
        by simp [conversationReducer, hv], strStartsWith_import_tag _⟩

/-- C2 (code bug): `isValidConversation` demands
`activeProviders instanceof Set`, but `JSON.parse` can never produce a
`Set`, so even the JSON serialization of a structurally valid
Conversation — string id, array of messages, object metadata,
serialized provider set — is rejected and the reducer throws
`ConversationError` (message `Failed to import conversation: Invalid
conversation data structure`) instead of inserting the entry; no
string payload can ever import. -/
theorem c2_import_rejects_valid_payload :
    (JsValue.obj [("id", .str "c1"), ("messages", .arr []), ("metadata", .obj []),
      ("activeProviders", .arr [])]).jsonDerived = true ∧
    conversationReducer [] (.importConversation (.ok (JsValue.obj [("id", .str "c1"),
      ("messages", .arr []), ("metadata", .obj []), ("activeProviders", .arr [])])))
      "u1" "u2" 0 =
      .error (.conversationError
        "Failed to import conversation: Invalid conversation data structure") :=
  ⟨by decide, by decide⟩

/-! ## C5 -/

lemma jsOrStr_ne_empty (a : Option String) (b : String) (hb : ¬ (b = "")) :
    ¬ (jsOrStr a b = "") := by
  cases a with
  | none => simpa [jsOrStr] using hb
  | some s =>
    simp only [jsOrStr]
    split_ifs with h
    · exact hb
    · simpa using h

lemma jsOrInt_zero_nonneg (a : Option Int) (ha : ∀ v, a = some v → 0 ≤ v) :
    0 ≤ jsOrInt a 0 := by
  cases a with
  | none => simp [jsOrInt]
  | some v =>
    simp only [jsOrInt]
    split_ifs with h
    · exact le_refl 0
    · exact ha v rfl

/-- C5 counterexample: the Google adapter answers a valid request
(available model, backend text `hi`) with `usage: undefined` — the
response carries no token counters at all, zero-filled or otherwise. -/
theorem c5_counterexample :
    googleGenerateChatCompletion ["gemini-1.5-pro"] "gemini-1.5-pro" none "hi" =
      .ok { model := "gemini-1.5-pro", text := "hi", finishReason := none, usage := none,
            outputVariables := some [("qllm_response", "hi")] } ∧
    (match googleGenerateChatCompletion ["gemini-1.5-pro"] "gemini-1.5-pro" none "hi" with
     | .ok r => r.usage = none
     | .error _ => False) :=
  ⟨by decide, rfl⟩

/-- C5 amended: every successful OpenAI completion carries a non-empty
model id and usage counters that are non-negative whenever the backend
counters are, zero-filled when the backend reports no usage; every
successful Google completion carries a non-empty model id (the default
model id of the missing `./models` module being non-empty) but leaves
`usage` undefined instead of zero-filling it. -/
theorem c5_usage_amended :
    (∀ (optModel sys : Option String) (msgs : List ChatMessage) (resp : OpenAIResponse),
      usageNonneg resp →
      match openaiGenerateChatCompletion optModel sys msgs resp with
      | .ok r => ¬ (r.model = "") ∧
          ∃ u, r.usage = some u ∧ 0 ≤ u.promptTokens ∧ 0 ≤ u.completionTokens ∧
            0 ≤ u.totalTokens ∧ (resp.usage = none → u = ⟨0, 0, 0⟩)
      | .error _ => True) ∧
    (∀ (avail : List String) (dm : String) (optModel : Option String) (bt : String),
      ¬ (dm = "") →
      match googleGenerateChatCompletion avail dm optModel bt with
      | .ok r => ¬ (r.model = "") ∧ r.usage = none
      | .error _ => True) := by
  constructor
  · intro optModel sys msgs resp hnn
    cases hf : formatMessages (withSystemMessage sys msgs) with
    | error e => simp [openaiGenerateChatCompletion, hf]
    | ok l =>
      simp only [openaiGenerateChatCompletion, hf]
      refine ⟨jsOrStr_ne_empty _ _ (by decide), _, rfl, ?_, ?_, ?_, ?_⟩
      · exact jsOrInt_zero_nonneg _ (by
          intro v hv
          cases hu : resp.usage with
          | none => simp [hu] at hv
          | some u0 =>
            rw [hu] at hv
            injection hv with hv
            exact hv ▸ (hnn u0 hu).1)
      · exact jsOrInt_zero_nonneg _ (by
          intro v hv
          cases hu : resp.usage with
          | none => simp [hu] at hv
          | some u0 =>
            rw [hu] at hv
            injection hv with hv
            exact hv ▸ (hnn u0 hu).2.1)
      · exact jsOrInt_zero_nonneg _ (by
          intro v hv
          cases hu : resp.usage with
          | none => simp [hu] at hv
          | some u0 =>
            rw [hu] at hv
            injection hv with hv
            exact hv ▸ (hnn u0 hu).2.2)
      · intro hu
        simp [hu, jsOrInt]
  · intro avail dm optModel bt hdm
    by_cases hm : jsOrStr optModel dm ∈ avail
    · simp only [googleGenerateChatCompletion]
      rw [if_neg (by simpa using hm)]
      exact ⟨jsOrStr_ne_empty _ _ hdm, rfl⟩
    · simp [googleGenerateChatCompletion, hm]

/-- Witness for C5's amended theorem at concrete requests. -/
theorem c5_witness :
    (match openaiGenerateChatCompletion (some "gpt-4o-mini") none []
       { choices := [], usage := some ⟨1, 2, 3⟩ } with
     | .ok r => ¬ (r.model = "") ∧
         ∃ u, r.usage = some u ∧ 0 ≤ u.promptTokens ∧ 0 ≤ u.completionTokens ∧
           0 ≤ u.totalTokens ∧
           (({ choices := [], usage := some ⟨1, 2, 3⟩ } : OpenAIResponse).usage = none →
             u = ⟨0, 0, 0⟩)
     | .error _ => True) ∧
    (match googleGenerateChatCompletion ["gemini-1.5-pro"] "gemini-1.5-pro" none "hi" with
     | .ok r => ¬ (r.model = "") ∧ r.usage = none
     | .error _ => True) :=
  ⟨c5_usage_amended.1 (some "gpt-4o-mini") none [] _ (by
      intro u h
      injection h with h
      subst h
      refine ⟨by decide, by decide, by decide⟩),
   c5_usage_amended.2 ["gemini-1.5-pro"] "gemini-1.5-pro" none "hi" (by decide)⟩

/-! ## C9 -/

/-- The last regex match of a given tag name in the match list (later
entries win). -/
def lastMatch : List (String × String) → String → Option (String × String)
| [], _ => none
| p :: rest, k =>
  match lastMatch rest k with
  | some q => some q
  | none => if p.1 == k then some p else none

lemma assocGet_assocSet (m : List (String × String)) (k v k2 : String) :
    assocGet (assocSet m k v) k2 = if k = k2 then some v else assocGet m k2 := by
  induction m with
  | nil => simp [assocSet, assocGet, beq_iff_eq]
  | cons p rest ih =>
    obtain ⟨k0, v0⟩ := p
    by_cases h1 : k0 = k <;> by_cases h2 : k0 = k2 <;> by_cases h3 : k = k2 <;>
      simp_all [assocSet, assocGet, beq_iff_eq]

lemma assocGet_foldl_assocSet (l : List (String × String)) (m : List (String × String))
    (k : String) :
    assocGet (l.foldl (fun m p => assocSet m p.1 (strTrim p.2)) m) k =
      match lastMatch l k with
      | some q => some (strTrim q.2)
      | none => assocGet m k := by
  induction l generalizing m with
  | nil => simp [lastMatch]
  | cons p rest ih =>
    simp only [List.foldl_cons, ih, lastMatch]
    cases hq : lastMatch rest k with
    | some q => rfl
    | none =>
      by_cases hk : p.1 = k
      · simp [hk, assocGet_assocSet]
      · have hb : (p.1 == k) = false := beq_eq_false_iff_ne.mpr hk
        simp [hb, assocGet_assocSet, hk]

/-- C9: the extracted output variables map each tag name to the
trimmed value of its last `<name>value</name>` match in the response
text; when the trimmed text is non-empty a synthetic `qllm_response`
key holds the full trimmed text; and on `<summary>ok</summary>` the
extraction yields exactly the claimed two-entry record. -/
theorem c9_extraction :
    (∀ (t : String) (name : String), ¬ (name = "qllm_response") →
      assocGet (extractOutputVariables t) name =
        (lastMatch (scanTags t.data) name).map (fun p => strTrim p.2)) ∧
    (∀ t : String, ¬ (strTrim t = "") →
      assocGet (extractOutputVariables t) "qllm_response" = some (strTrim t)) ∧
    extractOutputVariables "<summary>ok</summary>" =
      [("summary", "ok"), ("qllm_response", "<summary>ok</summary>")] := by
  refine ⟨?_, ?_, by decide⟩
  · intro t name hname
    simp only [extractOutputVariables]
    split_ifs with h
    · rw [assocGet_foldl_assocSet]
      cases hq : lastMatch (scanTags t.data) name <;> simp [assocGet]
    · rw [assocGet_assocSet]
      rw [if_neg (fun he => hname he.symm)]
      rw [assocGet_foldl_assocSet]
      cases hq : lastMatch (scanTags t.data) name <;> simp [assocGet]
  · intro t ht
    simp only [extractOutputVariables]
    split_ifs with h
    · exact absurd (by simpa using h) ht
    · rw [assocGet_assocSet, if_pos rfl]

/-- Witness for C9 on a text with two matches of the same tag. -/
theorem c9_witness :
    assocGet (extractOutputVariables "<a>x</a> <a>y</a>") "a" =
      (lastMatch (scanTags ("<a>x</a> <a>y</a>").data) "a").map (fun p => strTrim p.2) ∧
    assocGet (extractOutputVariables "<a>x</a> <a>y</a>") "qllm_response" =
      some (strTrim "<a>x</a> <a>y</a>") :=
  ⟨c9_extraction.1 "<a>x</a> <a>y</a>" "a" (by decide),
   c9_extraction.2.1 "<a>x</a> <a>y</a>" (by decide)⟩

/-! ## C7 -/

lemma dropWhile_head_not (q : Char → Bool) (s : List Char) (c : Char) (r : List Char)
    (h : s.dropWhile q = c :: r) : q c = false := by
  induction s with
  | nil => simp [List.dropWhile] at h
  | cons a t ih =>
    by_cases ha : q a = true
    · rw [List.dropWhile_cons, if_pos ha] at h
      exact ih h
    · rw [List.dropWhile_cons, if_neg ha] at h
      injection h with h1 h2
      subst h1
      simpa using ha

lemma length_dropWhile_le (q : Char → Bool) (s : List Char) :
    (s.dropWhile q).length ≤ s.length := by
  induction s with
  | nil => simp [List.dropWhile]
  | cons a t ih =>
    by_cases ha : q a = true
    · rw [List.dropWhile_cons, if_pos ha]
      exact ih.trans (Nat.le_succ _)
    · rw [List.dropWhile_cons, if_neg ha]

/-- A split with a capturing whitespace group concatenates back to the
input: the tokens and separators together carry every character. -/
lemma splitKeepF_flatten (p : Char → Bool) :
    ∀ (fuel : Nat) (s : List Char), s.length + 1 ≤ fuel →
      (splitKeepF p fuel s).flatten = s := by
  intro fuel
  induction fuel with
  | zero => intro s h; omega
  | succ n ih =>
    intro s h
    simp only [splitKeepF]
    cases hd : s.dropWhile (fun c => !(p c)) with
    | nil =>
      have hta := List.takeWhile_append_dropWhile (p := fun c => !(p c)) (l := s)
      rw [hd, List.append_nil] at hta
      simp [List.flatten, hta]
    | cons c r =>
      have hpc : p c = true := by
        have := dropWhile_head_not (fun c => !(p c)) s c r hd
        simpa using this
      have hdr : (c :: r).dropWhile p = r.dropWhile p := by
        rw [List.dropWhile_cons, if_pos hpc]
      have hlen1 : (c :: r).length ≤ s.length := by
        rw [← hd]
        exact length_dropWhile_le _ _
      have hrec : ((c :: r).dropWhile p).length + 1 ≤ n := by
        rw [hdr]
        have h2 := length_dropWhile_le p r
        simp only [List.length_cons] at hlen1
        omega
      -- flatten (tok :: sep :: rest) = tok ++ (sep ++ flatten rest)
      simp only [List.flatten, ih _ hrec]
      rw [List.takeWhile_append_dropWhile, ← hd, List.takeWhile_append_dropWhile]

lemma string_mk_append (a b : List Char) : String.mk a ++ String.mk b = String.mk (a ++ b) :=
  rfl

lemma foldl_append_mk (l : List (List Char)) : ∀ acc : List Char,
    (l.map String.mk).foldl (fun r s => r ++ s) (String.mk acc) =
      String.mk (acc ++ l.flatten) := by
  induction l with
  | nil =>
    intro acc
    simp
  | cons a rest ih =>
    intro acc
    simp only [List.map_cons, List.foldl_cons]
    rw [string_mk_append, ih (acc ++ a)]
    simp [List.append_assoc]

lemma join_map_mk (l : List (List Char)) :
    String.join (l.map String.mk) = String.mk l.flatten := by
  have he : ("" : String) = String.mk [] := rfl
  simp only [String.join, he, foldl_append_mk l [], List.nil_append]

/-- The Google word-level re-segmentation loses no characters. -/
lemma splitKeepSpaces_join (t : String) : String.join (splitKeepSpaces t) = t := by
  simp only [splitKeepSpaces]
  rw [join_map_mk, splitKeepF_flatten isJsSpace (t.data.length + 1) t.data (le_refl _)]

lemma join_append_single (l : List String) (x : String) :
    String.join (l ++ [x]) = String.join l ++ x := by
  simp only [String.join, List.foldl_append, List.foldl_cons, List.foldl_nil]

lemma string_append_empty (s : String) : s ++ "" = s := by
  obtain ⟨d⟩ := s
  show String.mk (d ++ []) = String.mk d
  rw [List.append_nil]

lemma filterMap_text_chunks (model : String) (words : List String) :
    (words.map (fun w =>
      ({ model := model, text := some w, finishReason := none } : StreamChunk))).filterMap
      (fun c => c.text) = words := by
  induction words with
  | nil => rfl
  | cons a rest ih => simp only [List.map_cons, List.filterMap_cons, ih]

/-- C7: the whitespace-capturing split concatenates back to the
original text; consuming the Google emulated stream to completion and
concatenating all non-null text fragments yields exactly the backend
text; and the non-streaming adapter returns exactly the backend text,
so the two agree for an equivalent request. -/
theorem c7_stream_concatenation :
    (∀ t : String, String.join (splitKeepSpaces t) = t) ∧
    (∀ (avail : List String) (dm : String) (optModel key? : Option String)
      (resp : FetchOutcome),
      match googleStreamChatCompletion avail dm optModel key? resp with
      | .ok chunks => concatStreamTexts chunks = (resp.text?).getD ""
      | .error _ => True) ∧
    (∀ (avail : List String) (dm : String) (optModel : Option String) (bt : String),
      match googleGenerateChatCompletion avail dm optModel bt with
      | .ok r => r.text = bt
      | .error _ => True) := by
  refine ⟨splitKeepSpaces_join, ?_, ?_⟩
  · intro avail dm optModel key? resp
    simp only [googleStreamChatCompletion, googleStreamBody]
    split_ifs with h1 h2
    · trivial
    · cases hk : googleGetKey key? <;> trivial
    · cases hk : googleGetKey key? with
      | error e => trivial
      | ok kk =>
        cases ht : resp.text? with
        | none => trivial
        | some t =>
          dsimp only
          split_ifs with h3
          · trivial
          · show concatStreamTexts _ = (some t).getD ""
            simp only [concatStreamTexts, List.filterMap_append, filterMap_text_chunks,
              List.filterMap_cons, List.filterMap_nil, Option.getD_some]
            rw [join_append_single, string_append_empty, splitKeepSpaces_join]
  · intro avail dm optModel bt
    simp only [googleGenerateChatCompletion]
    split_ifs <;> trivial

/-- Witness for C7 at a concrete backend response. -/
theorem c7_witness :
    String.join (splitKeepSpaces "hello world") = "hello world" ∧
    (match googleStreamChatCompletion ["m1"] "m1" none (some "k")
       { ok := true, status := 200, errorDetails := none, text? := some "hi there",
         finishReason? := some "STOP" } with
     | .ok chunks => concatStreamTexts chunks = "hi there"
     | .error _ => True) ∧
    (match googleGenerateChatCompletion ["m1"] "m1" none "fine" with
     | .ok r => r.text = "fine"
     | .error _ => True) :=
  ⟨c7_stream_concatenation.1 "hello world",
   c7_stream_concatenation.2.1 ["m1"] "m1" none (some "k")
     { ok := true, status := 200, errorDetails := none, text? := some "hi there",
       finishReason? := some "STOP" },
   c7_stream_concatenation.2.2 ["m1"] "m1" none "fine"⟩

/-! ## C6 -/

/-- C6 counterexample: `SET_METADATA` spreads the caller's metadata
patch before stamping `updatedAt`, so a payload carrying
`createdAt = 100` applied at time 5 leaves the stored conversation
with `createdAt = 100 > updatedAt = 5` — the invariant
`updatedAt ≥ createdAt` is breakable by a reachable action. -/
theorem c6_counterexample :
    conversationReducer
      [("c1", { id := "c1", messages := [],
                metadata := { createdAt := 0, updatedAt := 0, title := "t", description := "",
                              extra := [] }, activeProviders := [] })]
      (.setMetadata "c1" { createdAt? := some 100 }) "u" "v" 5 =
      .ok [("c1", { id := "c1", messages := [],
                    metadata := { createdAt := 100, updatedAt := 5, title := "t",
                                  description := "", extra := [] }, activeProviders := [] })] ∧
    ¬ ((100 : Nat) ≤ 5) :=
  ⟨by decide, by decide⟩

lemma mergeMetadata_updatedAt (base : ConversationMetadata) (patch? : Option MetadataPatch)
    (now : Nat) : (mergeMetadata base patch? now).updatedAt = now := by
  cases patch? <;> rfl

lemma patchKeeps_elim (q : MetadataPatch) (h : patchKeepsTimestamps q = true) :
    q.createdAt? = none ∧ q.updatedAt? = none := by
  obtain ⟨h1, h2⟩ : q.createdAt?.isNone = true ∧ q.updatedAt?.isNone = true := by
    simpa [patchKeepsTimestamps] using h
  exact ⟨Option.isNone_iff_eq_none.mp h1, Option.isNone_iff_eq_none.mp h2⟩

/-- C6 amended: provided payload metadata never overrides the
reducer-managed timestamps, import payloads are values `JSON.parse`
can produce, and the clock never runs behind any stored `createdAt`,
every transition preserves `updatedAt ≥ createdAt`; and each of the
six mutating actions on an existing conversation stamps that
conversation's `updatedAt` with the action time. -/
theorem c6_updated_at_amended :
    (∀ (st : ConversationMap) (a : ConversationAction) (u1 u2 : String) (now : Nat),
      actionTimestampSafe a = true →
      (∀ id c, mapGet st id = some c → c.metadata.createdAt ≤ now) →
      InvariantOk st →
      match conversationReducer st a u1 u2 now with
      | .ok st2 => InvariantOk st2
      | .error _ => True) ∧
    (∀ (st : ConversationMap) (a : ConversationAction) (u1 u2 : String) (now : Nat)
      (id : String), mutatesExisting a = some id →
      match conversationReducer st a u1 u2 now with
      | .ok st2 => ∃ c, mapGet st2 id = some c ∧ c.metadata.updatedAt = now
      | .error _ => True) := by
  constructor
  · intro st a u1 u2 now hsafe hclock hinv
    cases a with
    | createConversation p =>
      simp only [conversationReducer]
      intro id c hc
      rw [mapGet_mapSet] at hc
      by_cases hu : u1 = id
      · rw [if_pos hu] at hc
        injection hc with hc
        subst hc
        cases hm : p.metadata? with
        | none => simp [hm]
        | some q =>
          have hq : patchKeepsTimestamps q = true := by
            simpa [actionTimestampSafe, hm] using hsafe
          obtain ⟨hq1, hq2⟩ := patchKeeps_elim q hq
          simp [hm, hq1, hq2]
      · rw [if_neg hu] at hc
        exact hinv id c hc
    | updateConversation cid upd =>
      cases hg : mapGet st cid with
      | none => simp [conversationReducer, hg]
      | some conv =>
        simp only [conversationReducer, hg]
        intro id c hc
        rw [mapGet_mapSet] at hc
        by_cases hu : cid = id
        · rw [if_pos hu] at hc
          injection hc with hc
          subst hc
          cases hm : upd.metadata? with
          | none =>
            simp only [mergeMetadata, hm]
            exact hclock cid conv hg
          | some q =>
            have hq : patchKeepsTimestamps q = true := by
              simpa [actionTimestampSafe, hm] using hsafe
            obtain ⟨hq1, _⟩ := patchKeeps_elim q hq
            simp only [mergeMetadata, hm, hq1, Option.getD_none]
            exact hclock cid conv hg
        · rw [if_neg hu] at hc
          exact hinv id c hc
    | deleteConversation cid =>
      simp only [conversationReducer]
      intro id c hc
      rw [mapGet_mapDelete] at hc
      by_cases hu : cid = id
      · rw [if_pos hu] at hc
        exact absurd hc (by simp)
      · rw [if_neg hu] at hc
        exact hinv id c hc
    | addMessage cid msg =>
      cases hg : mapGet st cid with
      | none => simp [conversationReducer, hg]
      | some conv =>
        simp only [conversationReducer, hg]
        intro id c hc
        rw [mapGet_mapSet] at hc
        by_cases hu : cid = id
        · rw [if_pos hu] at hc
          injection hc with hc
          subst hc
          exact hclock cid conv hg
        · rw [if_neg hu] at hc
          exact hinv id c hc
    | setMetadata cid q =>
      cases hg : mapGet st cid with
      | none => simp [conversationReducer, hg]
      | some conv =>
        simp only [conversationReducer, hg]
        intro id c hc
        rw [mapGet_mapSet] at hc
        by_cases hu : cid = id
        · rw [if_pos hu] at hc
          injection hc with hc
          subst hc
          have hq : patchKeepsTimestamps q = true := by
            simpa [actionTimestampSafe] using hsafe
          obtain ⟨hq1, _⟩ := patchKeeps_elim q hq
          simp only [mergeMetadata, hq1, Option.getD_none]
          exact hclock cid conv hg
        · rw [if_neg hu] at hc
          exact hinv id c hc
    | addProvider cid pid =>
      cases hg : mapGet st cid with
      | none => simp [conversationReducer, hg]
      | some conv =>
        simp only [conversationReducer, hg]
        intro id c hc
        rw [mapGet_mapSet] at hc
        by_cases hu : cid = id
        · rw [if_pos hu] at hc
          injection hc with hc
          subst hc
          exact hclock cid conv hg
        · rw [if_neg hu] at hc
          exact hinv id c hc
    | removeProvider cid pid =>
      cases hg : mapGet st cid with
      | none => simp [conversationReducer, hg]
      | some conv =>
        by_cases hcp : pid ∈ conv.activeProviders
        · simp only [conversationReducer, hg]
          rw [if_neg (by simpa using hcp)]
          intro id c hc
          rw [mapGet_mapSet] at hc
          by_cases hu : cid = id
          · rw [if_pos hu] at hc
            injection hc with hc
            subst hc
            exact hclock cid conv hg
          · rw [if_neg hu] at hc
            exact hinv id c hc
        · simp [conversationReducer, hg, hcp]
    | clearHistory cid =>
      cases hg : mapGet st cid with
      | none => simp [conversationReducer, hg]
      | some conv =>
        simp only [conversationReducer, hg]
        intro id c hc
        rw [mapGet_mapSet] at hc
        by_cases hu : cid = id
        · rw [if_pos hu] at hc
          injection hc with hc
          subst hc
          exact hclock cid conv hg
        · rw [if_neg hu] at hc
          exact hinv id c hc
    | importConversation parsed =>
      cases parsed with
      | error m => simp [conversationReducer]
      | ok v =>
        have hjd : v.jsonDerived = true := by
          simpa [actionTimestampSafe] using hsafe
        obtain ⟨m, hm, _⟩ := import_always_fails st u1 u2 now (.ok v) (by
          intro w hw
          injection hw with hw
          exact hw ▸ hjd)
        rw [hm]
        trivial
  · intro st a u1 u2 now id hmut
    cases a with
    | createConversation p => simp [mutatesExisting] at hmut
    | deleteConversation cid => simp [mutatesExisting] at hmut
    | importConversation parsed => simp [mutatesExisting] at hmut
    | updateConversation cid upd =>
      have hid : cid = id := by simpa [mutatesExisting] using hmut
      subst hid
      cases hg : mapGet st cid with
      | none => simp [conversationReducer, hg]
      | some conv =>
        simp only [conversationReducer, hg]
        exact ⟨_, by rw [mapGet_mapSet, if_pos rfl], mergeMetadata_updatedAt _ _ _⟩
    | addMessage cid msg =>
      have hid : cid = id := by simpa [mutatesExisting] using hmut
      subst hid
      cases hg : mapGet st cid with
      | none => simp [conversationReducer, hg]
      | some conv =>
        simp only [conversationReducer, hg]
        exact ⟨_, by rw [mapGet_mapSet, if_pos rfl], rfl⟩
    | setMetadata cid q =>
      have hid : cid = id := by simpa [mutatesExisting] using hmut
      subst hid
      cases hg : mapGet st cid with
      | none => simp [conversationReducer, hg]
      | some conv =>
        simp only [conversationReducer, hg]
        exact ⟨_, by rw [mapGet_mapSet, if_pos rfl], rfl⟩
    | addProvider cid pid =>
      have hid : cid = id := by simpa [mutatesExisting] using hmut
      subst hid
      cases hg : mapGet st cid with
      | none => simp [conversationReducer, hg]
      | some conv =>
        simp only [conversationReducer, hg]
        exact ⟨_, by rw [mapGet_mapSet, if_pos rfl], rfl⟩
    | removeProvider cid pid =>
      have hid : cid = id := by simpa [mutatesExisting] using hmut
      subst hid
      cases hg : mapGet st cid with
      | none => simp [conversationReducer, hg]
      | some conv =>
        by_cases hcp : pid ∈ conv.activeProviders
        · simp only [conversationReducer, hg]
          rw [if_neg (by simpa using hcp)]
          exact ⟨_, by rw [mapGet_mapSet, if_pos rfl], rfl⟩
        · simp [conversationReducer, hg, hcp]
    | clearHistory cid =>
      have hid : cid = id := by simpa [mutatesExisting] using hmut
      subst hid
      cases hg : mapGet st cid with
      | none => simp [conversationReducer, hg]
      | some conv =>
        simp only [conversationReducer, hg]
        exact ⟨_, by rw [mapGet_mapSet, if_pos rfl], rfl⟩

/-- Witness for C6's amended theorem at concrete actions. -/
theorem c6_witness :
    (match conversationReducer [] (.createConversation ⟨none, none, none⟩) "u" "v" 0 with
     | .ok st2 => InvariantOk st2
     | .error _ => True) ∧
    (match conversationReducer
        [("c1", { id := "c1", messages := [],
                  metadata := { createdAt := 0, updatedAt := 0, title := "t",
                                description := "", extra := [] }, activeProviders := [] })]
        (.clearHistory "c1") "u" "v" 7 with
     | .ok st2 => ∃ c, mapGet st2 "c1" = some c ∧ c.metadata.updatedAt = 7
     | .error _ => True) :=
  ⟨c6_updated_at_amended.1 [] (.createConversation ⟨none, none, none⟩) "u" "v" 0 rfl
     (fun _ _ h => nomatch h) (fun _ _ h => nomatch h),
   c6_updated_at_amended.2
     [("c1", { id := "c1", messages := [],
               metadata := { createdAt := 0, updatedAt := 0, title := "t",
                             description := "", extra := [] }, activeProviders := [] })]
     (.clearHistory "c1") "u" "v" 7 "c1" rfl⟩

end Qllm
